import Mathlib

/-!
Verification of the TimeEntry lifecycle logic of the go-toggl client
(src/main.go).

Modelling conventions:

* A Go `time.Time` used for instant arithmetic is modelled as `Time := Int`,
  the number of nanoseconds since the Unix epoch.  `time.Time.Unix()` returns
  the whole-second part, i.e. floor division by 10^9 (the Go struct stores
  seconds plus a nanosecond in [0, 10^9), so `Unix` floors).  Go's division
  of `time.Duration` (an `int64` of nanoseconds) by `time.Second` truncates
  toward zero, which is `Int.div` here.  Arithmetic is idealised over `Int`
  (no 64-bit overflow).
* `*time.Time` fields become `Option Time`; a Go nil-pointer dereference
  (panic) is modelled by an operation returning `none`.
* `Billable float32` is carried opaquely: no arithmetic is ever performed on
  it in the code under verification, so it is modelled as an `Int` that all
  operations pass through unchanged.
* The package-level variable `AppName` is modelled at its default value
  `"go-toggl"` (`DefaultAppName` in main.go).
-/

/-- Nanoseconds since the Unix epoch, the instant payload of `time.Time`. -/
abbrev Time := Int

/-- Nanoseconds per second (`time.Second`). -/
def nsPerSec : Int := 1000000000

/-- `time.Time.Unix()`: whole seconds since the epoch (floor of ns / 10^9). -/
def unixSec (t : Time) : Int := Int.fdiv t nsPerSec

/-- The local calendar-day index of an instant for a time zone that is a
fixed offset of `off` seconds east of UTC: two instants render the same
`Format("2006-01-02")` local date exactly when they fall in the same
86400-second window of shifted Unix time, i.e. have the same value here. -/
def localDay (off : Int) (t : Time) : Int := Int.fdiv (unixSec t + off) 86400

/-- The `TimeEntry` struct of main.go (the two `*time.Time` fields as
`Option Time`, `Tags []string` as `List String`). -/
structure TimeEntry where
  wid : Int := 0
  id : Int := 0
  pid : Int := 0
  tid : Int := 0
  description : String := ""
  stop : Option Time := none
  start : Option Time := none
  tags : List String := []
  duration : Int := 0
  durOnly : Bool := false
  billable : Int := 0
deriving Repr, DecidableEq

/-- `IsRunning`: a time entry is running iff its duration is negative. -/
def TimeEntry.IsRunning (e : TimeEntry) : Bool := e.duration < 0

/-- `StartTime`: the start instant, or the zero instant when absent. -/
def TimeEntry.StartTime (e : TimeEntry) : Time := e.start.getD 0

/-- `StopTime`: the stop instant, or the zero instant when absent. -/
def TimeEntry.StopTime (e : TimeEntry) : Time := e.stop.getD 0

/-- `indexOfTag` of main.go: index of a tag in a tag list, or -1. -/
def indexOfTag (tag : String) (tags : List String) : Int :=
  match tags.indexOf? tag with
  | some i => (i : Int)
  | none => -1

/-- `HasTag`: membership test via `indexOfTag`. -/
def TimeEntry.HasTag (e : TimeEntry) (tag : String) : Bool :=
  indexOfTag tag e.tags != -1

/-- `Copy` at the value level: in the Go source, `Copy` duplicates the tag
slice and the pointed-to start/stop times so the copy owns its own cells;
on the pure value view that duplication is the identity.  (The ownership
content of `Copy` is verified separately on the heap model below.) -/
def TimeEntry.Copy (e : TimeEntry) : TimeEntry := e

/-- `SetDuration` (main.go): rejected with an error when running; otherwise
sets the duration and points `stop` at the fresh instant `start + duration`
seconds.  The Go code dereferences `e.Start` with no nil check, so an absent
start on a stopped entry is a panic, modelled as `none`.  Result: the updated
entry together with the returned error, or `none` for a panic. -/
def TimeEntry.SetDuration (e : TimeEntry) (duration : Int) :
    Option (TimeEntry × Option String) :=
  if e.IsRunning then
    some (e, some "TimeEntry must be stopped")
  else
    match e.start with
    | none => none
    | some s =>
        some ({ e with duration := duration,
                       stop := some (s + duration * nsPerSec) }, none)

/-- `SetStartTime` (main.go): always sets `start`; when the entry is not
running it additionally recomputes `stop` (if `updateEnd`) or `duration`
(otherwise, dereferencing `e.Stop` with no nil check, so an absent stop is a
panic, modelled as `none`).  The method has no error return. -/
def TimeEntry.SetStartTime (e : TimeEntry) (start : Time) (updateEnd : Bool) :
    Option TimeEntry :=
  let e1 := { e with start := some start }
  if !e.IsRunning then
    if updateEnd then
      some { e1 with stop := some (start + e.duration * nsPerSec) }
    else
      match e1.stop with
      | none => none
      | some st => some { e1 with duration := unixSec st - unixSec start }
  else
    some e1

/-- `SetStopTime` (main.go): rejected with an error when running; otherwise
sets `stop` and recomputes the duration as `stop.Sub(*e.Start) / time.Second`,
Go integer division of nanoseconds truncating toward zero (`Int.tdiv`).  The
Go code dereferences `e.Start` with no nil check, so an absent start on a
stopped entry is a panic, modelled as `none`. -/
def TimeEntry.SetStopTime (e : TimeEntry) (stop : Time) :
    Option (TimeEntry × Option String) :=
  if e.IsRunning then
    some (e, some "TimeEntry must be stopped")
  else
    match e.start with
    | none => none
    | some s =>
        some ({ e with stop := some stop,
                       duration := Int.tdiv (stop - s) nsPerSec }, none)

/-! ## Remote calls: ContinueTimeEntry and UnstopTimeEntry

The HTTP transport is external; what the code under verification decides is
*which* calls are issued, in which order, with which paths and payloads, and
how responses and failures are threaded.  Calls are reified as data and the
transport's answers are supplied as an oracle parameter. -/

/-- `DefaultAppName`, the value of the package variable `AppName` used in
`created_with` fields. -/
def appName : String := "go-toggl"

/-- The JSON body sent by the creation (`/time_entries/start`) call built in
`ContinueTimeEntry`'s Branch B and in `UnstopTimeEntry`: exactly the fields
`description`, `pid`, `tid`, `billable`, `created_with`, `tags`, `duronly`. -/
structure StartBody where
  description : String
  pid : Int
  tid : Int
  billable : Int
  createdWith : String
  tags : List String
  duronly : Bool
deriving Repr, DecidableEq

/-- The creation body carrying over the given entry's fields with the given
`duronly` flag (main.go lines 386-394 and 408-417). -/
def startBodyOf (timer : TimeEntry) (duronly : Bool) : StartBody :=
  { description := timer.description
    pid := timer.pid
    tid := timer.tid
    billable := timer.billable
    createdWith := appName
    tags := timer.tags
    duronly := duronly }

/-- A reified remote call of `ContinueTimeEntry`: either an update (PUT) of a
full entry at a path, or a creation (POST) of a start body at a path. -/
inductive TogglRequest where
  | put (path : String) (entry : TimeEntry)
  | post (path : String) (body : StartBody)
deriving Repr, DecidableEq

/-- `ContinueTimeEntry` (main.go): the request it submits, parametrised by
the current instant `now` (`time.Now()`) and the local zone's fixed offset
`off` in seconds east of UTC (used by `.Local().Format("2006-01-02")`).
Go's `&&` short-circuits, so `timer.Start` is dereferenced only when
`duronly` is true; an absent start there is a nil-pointer panic, modelled as
`none`.  Branch A copies the entry, sets its duration to
`-(now.Unix() - entry.Duration)` and its `DurOnly` to true, and PUTs it at
the entry's own id; Branch B POSTs a fresh creation body. -/
def ContinueTimeEntry (off : Int) (now : Time) (timer : TimeEntry)
    (duronly : Bool) : Option TogglRequest :=
  if duronly then
    match timer.start with
    | none => none
    | some s =>
        if localDay off now = localDay off s then
          let entry := timer.Copy
          let entry := { entry with
                           duration := -(unixSec now - entry.duration),
                           durOnly := true }
          some (.put ("/time_entries/" ++ toString timer.id) entry)
        else
          some (.post "/time_entries/start" (startBodyOf timer duronly))
  else
    some (.post "/time_entries/start" (startBodyOf timer duronly))

/-- One remote call issued by `UnstopTimeEntry`, in trace order: the creation
POST, the update of the new entry (by id, with the full entry as body), or
the deletion of the original entry by id. -/
inductive UnstopCall where
  | create (body : StartBody)
  | update (id : Int) (entry : TimeEntry)
  | delete (id : Int)
deriving Repr, DecidableEq

/-- The transport oracle for `UnstopTimeEntry`: the outcome of each remote
interaction were it to be issued.  For the creation call the transport layer
(`session.post`) and the decode layer (`timeEntryRequest`) can fail
separately, hence the nested `Except`; for the update call
(`UpdateTimeEntry`) only the combined outcome is observed (its value is
discarded); the delete call yields no decoded value. -/
structure UnstopEnv where
  createResp : Except String (Except String TimeEntry)
  updateResp : Except String TimeEntry
  deleteResp : Except String Unit

/-- `UnstopTimeEntry` (main.go): returns the Go function's named results
`(newEntry, err)` together with the trace of remote calls actually issued,
in order.  Mirrors the source: create; decode; overwrite the new entry's
start with the original's; update; delete; each failure returns immediately
with its step-identifying wrapped error message. -/
def UnstopTimeEntry (env : UnstopEnv) (timer : TimeEntry) :
    TimeEntry × Option String × List UnstopCall :=
  let body := startBodyOf timer timer.durOnly
  match env.createResp with
  | .error m => ({}, some ("New entry not started: " ++ m), [.create body])
  | .ok decoded =>
    match decoded with
    | .error m => ({}, some ("New entry not valid: " ++ m), [.create body])
    | .ok fresh =>
      let newEntry := { fresh with start := timer.start }
      match env.updateResp with
      | .error m =>
          (newEntry, some ("New entry not updated: " ++ m),
           [.create body, .update newEntry.id newEntry])
      | .ok _ =>
        match env.deleteResp with
        | .error m =>
            (newEntry, some ("Old entry not deleted: " ++ m),
             [.create body, .update newEntry.id newEntry, .delete timer.id])
        | .ok _ =>
            (newEntry, none,
             [.create body, .update newEntry.id newEntry, .delete timer.id])

/-! ## Claims about the mutators and ContinueTimeEntry -/

/-- C1: for every stopped time entry with a present start,
`ContinueTimeEntry` takes Branch A exactly when `duronly` is true and the
entry's start falls on the same local calendar day as `now`; Branch A PUTs,
to the entry's own remote id, a copy of the entry whose duration is
`-(now.Unix() - entry.Duration)` and whose `DurOnly` is true; in every other
case Branch B POSTs a creation body carrying over only description, pid,
tid, billable, tags and the requested `duronly`. -/
theorem continueTimeEntry_branches (off : Int) (now : Time)
    (timer : TimeEntry) (duronly : Bool) (s : Time)
    (_hrun : timer.IsRunning = false) (hs : timer.start = some s) :
    ContinueTimeEntry off now timer duronly =
      (if duronly = true ∧ localDay off now = localDay off s then
        some (.put ("/time_entries/" ++ toString timer.id)
          { timer with duration := -(unixSec now - timer.duration),
                       durOnly := true })
      else
        some (.post "/time_entries/start" (startBodyOf timer duronly))) := by
  cases duronly
  · simp [ContinueTimeEntry, hs]
  · simp only [ContinueTimeEntry, hs, TimeEntry.Copy]
    split <;> simp_all

/-- Witness for C1 at concrete inputs: a stopped entry started on the same
local day as `now` (UTC zone, both on day 0) continued with
`durationOnly = true` takes Branch A. -/
theorem continueTimeEntry_branches_witness :
    ({ start := some 1000000000, duration := 30,
       id := 7 } : TimeEntry).IsRunning = false ∧
    ContinueTimeEntry 0 (2 * 1000000000)
        { start := some 1000000000, duration := 30, id := 7 } true =
      some (.put "/time_entries/7"
        { start := some 1000000000, duration := -(2 - 30), durOnly := true,
          id := 7 }) := by
  refine ⟨by decide, ?_⟩
  rw [continueTimeEntry_branches 0 (2 * 1000000000)
      { start := some 1000000000, duration := 30, id := 7 } true 1000000000
      (by decide) rfl]
  decide

/-- C4: `SetStartTime` always sets `start = newStart`; on a running entry
only `start` changes; on a stopped entry with `updateEnd = true` it also
recomputes `stop = newStart + duration` seconds with `duration` unchanged;
on a stopped entry with a present stop and `updateEnd = false` it also
recomputes `duration` as the difference of the Unix-second values of `stop`
and `newStart` with `stop` unchanged. -/
theorem setStartTime_spec (e : TimeEntry) (t : Time) :
    (e.IsRunning = true → ∀ b, e.SetStartTime t b = some { e with start := some t }) ∧
    (e.IsRunning = false →
      e.SetStartTime t true =
        some { e with start := some t,
                      stop := some (t + e.duration * nsPerSec) }) ∧
    (e.IsRunning = false → ∀ st, e.stop = some st →
      e.SetStartTime t false =
        some { e with start := some t,
                      duration := unixSec st - unixSec t }) := by
  refine ⟨fun h b => ?_, fun h => ?_, fun h st hst => ?_⟩
  · simp [TimeEntry.SetStartTime, h]
  · simp [TimeEntry.SetStartTime, h]
  · simp [TimeEntry.SetStartTime, h, hst]

/-- Witness for C4 at concrete inputs: a stopped entry (duration 5,
stop = 9 s) has its start set to 2 s; with `updateEnd = true` the stop
becomes 7 s, with `updateEnd = false` the duration becomes 7; a running
entry (duration -3) only has its start changed. -/
theorem setStartTime_spec_witness :
    ({ duration := -3, stop := some 4 } : TimeEntry).SetStartTime 2 false =
      some { duration := -3, stop := some 4, start := some 2 } ∧
    ({ duration := 5, stop := some (9 * 1000000000) } : TimeEntry).SetStartTime
        (2 * 1000000000) true =
      some { duration := 5, start := some (2 * 1000000000),
             stop := some (7 * 1000000000) } ∧
    ({ duration := 5, stop := some (9 * 1000000000) } : TimeEntry).SetStartTime
        (2 * 1000000000) false =
      some { duration := 7, start := some (2 * 1000000000),
             stop := some (9 * 1000000000) } := by
  refine ⟨(setStartTime_spec { duration := -3, stop := some 4 } 2).1 (by decide) false, ?_, ?_⟩
  · have h := (setStartTime_spec
      { duration := 5, stop := some (9 * 1000000000) } (2 * 1000000000)).2.1
      (by decide)
    rw [h]; decide
  · have h := (setStartTime_spec
      { duration := 5, stop := some (9 * 1000000000) } (2 * 1000000000)).2.2
      (by decide) (9 * 1000000000) rfl
    rw [h]; decide

/-- C6: on a non-running entry with a present start, `SetDuration d`
succeeds (no error), sets `duration = d` and recomputes
`stop = start + d` seconds, leaving `start` unchanged. -/
theorem setDuration_spec (e : TimeEntry) (d : Int) (s : Time)
    (hrun : e.IsRunning = false) (hs : e.start = some s) :
    e.SetDuration d =
      some ({ e with duration := d, stop := some (s + d * nsPerSec) }, none) := by
  simp [TimeEntry.SetDuration, hrun, hs]

/-- Witness for C6 at a concrete input: duration 7 on a stopped entry
started at 3 s yields stop = 10 s and unchanged start. -/
theorem setDuration_spec_witness :
    ({ duration := 2, start := some (3 * 1000000000) } : TimeEntry).SetDuration 7 =
      some ({ duration := 7, start := some (3 * 1000000000),
              stop := some (10 * 1000000000) }, none) := by
  rw [setDuration_spec { duration := 2, start := some (3 * 1000000000) } 7
      (3 * 1000000000) (by decide) rfl]
  decide

/-- C5 counterexample: the claim says `SetStopTime` sets
`duration = floor(newStop - start)` in seconds for *every* instant
`newStop`.  On the stopped entry started at 1.5 s, `SetStopTime 0` runs
Go's truncating division: `(0 - 1500000000) / 10^9 = -1`, whereas the
floor of -1.5 s is -2.  So the computed duration is not the floor. -/
theorem setStopTime_not_floor :
    ({ start := some 1500000000 } : TimeEntry).SetStopTime 0 =
      some ({ start := some 1500000000, stop := some 0, duration := -1 }, none) ∧
    Int.fdiv (0 - 1500000000) nsPerSec = -2 ∧ (-1 : Int) ≠ -2 := by
  refine ⟨?_, by decide, by decide⟩
  simp [TimeEntry.SetStopTime, TimeEntry.IsRunning]
  decide

/-- C5 (amended): on a non-running entry with a present start,
`SetStopTime newStop` succeeds (no error), sets `stop = newStop` and sets
`duration` to `(newStop - start)` in seconds truncated toward zero; in
particular whenever `start ≤ newStop` this equals exactly
`floor(newStop - start)` in seconds. -/
theorem setStopTime_spec (e : TimeEntry) (t : Time) (s : Time)
    (hrun : e.IsRunning = false) (hs : e.start = some s) :
    e.SetStopTime t =
      some ({ e with stop := some t,
                     duration := Int.tdiv (t - s) nsPerSec }, none) ∧
    (s ≤ t → Int.tdiv (t - s) nsPerSec = Int.fdiv (t - s) nsPerSec) := by
  constructor
  · simp [TimeEntry.SetStopTime, hrun, hs]
  · intro hle
    rw [Int.tdiv_eq_ediv (Int.sub_nonneg.mpr hle) (by norm_num [nsPerSec]),
        Int.fdiv_eq_ediv _ (by norm_num [nsPerSec])]

/-- Witness for C5 (amended) at a concrete input: stop set to 10.5 s on an
entry started at 3 s gives duration 7 (= floor 7.5). -/
theorem setStopTime_spec_witness :
    ({ start := some (3 * 1000000000) } : TimeEntry).SetStopTime 10500000000 =
      some ({ start := some (3 * 1000000000), stop := some 10500000000,
              duration := 7 }, none) ∧
    Int.tdiv (10500000000 - 3 * 1000000000) nsPerSec =
      Int.fdiv (10500000000 - 3 * 1000000000) nsPerSec := by
  have h := setStopTime_spec { start := some (3 * 1000000000) } 10500000000
    (3 * 1000000000) (by decide) rfl
  refine ⟨?_, h.2 (by decide)⟩
  rw [h.1]; decide

/-- C3 counterexample: the claim says each of `SetDuration`, `SetStartTime`
and `SetStopTime` is rejected with an error on a running entry and leaves
the fields unchanged.  On the running entry (duration -5, start 0 s),
`SetStartTime 7 true` is not rejected — the method has no error result at
all — and it changes the start field. -/
theorem setStartTime_running_not_rejected :
    ({ duration := -5, start := some 0 } : TimeEntry).SetStartTime 7 true =
      some { duration := -5, start := some 7 } ∧
    ({ duration := -5, start := some 7 } : TimeEntry).start ≠
      ({ duration := -5, start := some 0 } : TimeEntry).start := by
  constructor
  · simp [TimeEntry.SetStartTime, TimeEntry.IsRunning]
  · decide

/-- C3 (amended): on a running entry, `SetDuration` and `SetStopTime` are
rejected with the error "TimeEntry must be stopped" and leave every field
unchanged; `SetStartTime`, which has no error result, is not rejected: it
sets `start` and leaves `duration` and `stop` (and all other fields)
unchanged. -/
theorem running_mutators_spec (e : TimeEntry) (hrun : e.IsRunning = true) :
    (∀ d, e.SetDuration d = some (e, some "TimeEntry must be stopped")) ∧
    (∀ t, e.SetStopTime t = some (e, some "TimeEntry must be stopped")) ∧
    (∀ t b, e.SetStartTime t b = some { e with start := some t }) := by
  refine ⟨fun d => ?_, fun t => ?_, fun t b => ?_⟩
  · simp [TimeEntry.SetDuration, hrun]
  · simp [TimeEntry.SetStopTime, hrun]
  · simp [TimeEntry.SetStartTime, hrun]

/-- Witness for C3 (amended) at a concrete running entry (duration -5):
both duration-affecting mutators reject and return the entry unchanged,
`SetStartTime` only changes the start. -/
theorem running_mutators_spec_witness :
    ({ duration := -5 } : TimeEntry).SetDuration 3 =
      some ({ duration := -5 }, some "TimeEntry must be stopped") ∧
    ({ duration := -5 } : TimeEntry).SetStopTime 4 =
      some ({ duration := -5 }, some "TimeEntry must be stopped") ∧
    ({ duration := -5 } : TimeEntry).SetStartTime 4 false =
      some { duration := -5, start := some 4 } := by
  have h := running_mutators_spec { duration := -5 } (by decide)
  exact ⟨h.1 3, h.2.1 4, h.2.2 4 false⟩

/-- C10: partiality of the operations that dereference an optional
timestamp with no nil check.  On a non-running entry, `SetDuration` panics
exactly when `start` is absent; `SetStartTime` with `updateEnd = false`
panics exactly when `stop` is absent; `SetStopTime` panics exactly when
`start` is absent; and `ContinueTimeEntry` with `durationOnly = true`
panics exactly when `start` is absent (for `durationOnly = false` the Go
`&&` short-circuits and no dereference happens).  A panic is the `none`
result of the model. -/
theorem optional_deref_partiality (e : TimeEntry) (hrun : e.IsRunning = false) :
    (∀ d, e.SetDuration d = none ↔ e.start = none) ∧
    (∀ t, e.SetStartTime t false = none ↔ e.stop = none) ∧
    (∀ t, e.SetStopTime t = none ↔ e.start = none) ∧
    (∀ off now, ContinueTimeEntry off now e true = none ↔ e.start = none) ∧
    (∀ off now d, ContinueTimeEntry off now e false ≠ none ∧
      e.SetStartTime d true ≠ none) := by
  refine ⟨fun d => ?_, fun t => ?_, fun t => ?_, fun off now => ?_,
    fun off now d => ⟨?_, ?_⟩⟩
  · cases hs : e.start <;> simp [TimeEntry.SetDuration, hrun, hs]
  · cases hs : e.stop <;> simp [TimeEntry.SetStartTime, hrun, hs]
  · cases hs : e.start <;> simp [TimeEntry.SetStopTime, hrun, hs]
  · cases hs : e.start <;> simp [ContinueTimeEntry, hs]
    split <;> simp
  · simp [ContinueTimeEntry]
  · simp [TimeEntry.SetStartTime, hrun]

/-- Witness for C10 at concrete inputs: on a stopped entry with both
timestamps absent, `SetDuration` panics; on one with both present, it does
not. -/
theorem optional_deref_partiality_witness :
    (({} : TimeEntry).SetDuration 3 = none) ∧
    (({ start := some 0, stop := some 0 } : TimeEntry).SetDuration 3 ≠ none) := by
  have h0 := optional_deref_partiality {} (by decide)
  have h1 := optional_deref_partiality { start := some 0, stop := some 0 } (by decide)
  constructor
  · exact (h0.1 3).mpr rfl
  · intro hc
    exact Option.noConfusion ((h1.1 3).mp hc)

/-- C2: `UnstopTimeEntry` issues at most the three remote calls create,
update (of the new entry, after overwriting its start with the original's
start), delete (of the original, by id), in this strict order, and stops at
the first failing step with an error wrapping that step's failure in
step-identifying context: transport failure of the creation wraps as
"New entry not started", an undecodable creation response as
"New entry not valid", update failure as "New entry not updated" and delete
failure as "Old entry not deleted".  When only the delete fails the
returned new entry is the decoded one carrying the original start, and the
full call trace including the attempted delete was issued. -/
theorem unstopTimeEntry_spec (timer : TimeEntry) (env : UnstopEnv) :
    (∀ m, env.createResp = .error m →
      UnstopTimeEntry env timer =
        ({}, some ("New entry not started: " ++ m),
         [.create (startBodyOf timer timer.durOnly)])) ∧
    (∀ m, env.createResp = .ok (.error m) →
      UnstopTimeEntry env timer =
        ({}, some ("New entry not valid: " ++ m),
         [.create (startBodyOf timer timer.durOnly)])) ∧
    (∀ fresh m, env.createResp = .ok (.ok fresh) → env.updateResp = .error m →
      UnstopTimeEntry env timer =
        ({ fresh with start := timer.start },
         some ("New entry not updated: " ++ m),
         [.create (startBodyOf timer timer.durOnly),
          .update fresh.id { fresh with start := timer.start }])) ∧
    (∀ fresh m u, env.createResp = .ok (.ok fresh) → env.updateResp = .ok u →
      env.deleteResp = .error m →
      UnstopTimeEntry env timer =
        ({ fresh with start := timer.start },
         some ("Old entry not deleted: " ++ m),
         [.create (startBodyOf timer timer.durOnly),
          .update fresh.id { fresh with start := timer.start },
          .delete timer.id])) ∧
    (∀ fresh u, env.createResp = .ok (.ok fresh) → env.updateResp = .ok u →
      env.deleteResp = .ok () →
      UnstopTimeEntry env timer =
        ({ fresh with start := timer.start }, none,
         [.create (startBodyOf timer timer.durOnly),
          .update fresh.id { fresh with start := timer.start },
          .delete timer.id])) := by
  refine ⟨fun m h1 => ?_, fun m h1 => ?_, fun fresh m h1 h2 => ?_,
    fun fresh m u h1 h2 h3 => ?_, fun fresh u h1 h2 h3 => ?_⟩ <;>
    simp [UnstopTimeEntry, h1]
  · simp [*]
  · simp [*]
  · simp [*]

/-- Witness for C2 at concrete inputs: the original entry has id 3 and
start 5; the creation decodes to a fresh entry with id 9; the update
succeeds and the delete fails with "boom".  The returned entry is the fresh
one with the original start 5, the error reports the old entry as not
deleted, and all three calls were issued in order. -/
theorem unstopTimeEntry_spec_witness :
    UnstopTimeEntry
        { createResp := .ok (.ok { id := 9 }), updateResp := .ok {},
          deleteResp := .error "boom" }
        { id := 3, start := some 5 } =
      ({ id := 9, start := some 5 }, some "Old entry not deleted: boom",
       [.create (startBodyOf { id := 3, start := some 5 } false),
        .update 9 { id := 9, start := some 5 },
        .delete 3]) := by
  have h := (unstopTimeEntry_spec { id := 3, start := some 5 }
      { createResp := .ok (.ok { id := 9 }), updateResp := .ok {},
        deleteResp := .error "boom" }).2.2.2.1
    { id := 9 } "boom" {} rfl rfl rfl
  rw [h]; decide

/-! ## Heap model: the ownership content of `Copy`

`Copy`'s deep-copy claim (C7) is about pointer sharing, invisible at the
value level, so the entry's referenced data is modelled against an explicit
store: `*time.Time` fields hold addresses of time cells, the `Tags` slice
holds the address of its backing array (modelled as the whole list; the
source never shares one backing array between two live entries, so slice
len/cap bookkeeping is not represented — `append` is modelled as a write of
the backing cell).  `&x` of a fresh local allocates a new cell; the three
Set mutators of main.go only ever allocate fresh cells, and the tag mutators
only ever write the entry's own backing array. -/

structure Heap where
  timeCells : Nat → Time
  arrCells : Nat → List String
  nextT : Nat
  nextA : Nat

/-- Allocate a fresh time cell (Go `&t` of a fresh local). -/
def Heap.allocT (h : Heap) (v : Time) : Heap × Nat :=
  ({ h with timeCells := fun a => if a = h.nextT then v else h.timeCells a,
            nextT := h.nextT + 1 }, h.nextT)

/-- Allocate a fresh backing array (Go `make([]string, n)` + `copy`). -/
def Heap.allocA (h : Heap) (v : List String) : Heap × Nat :=
  ({ h with arrCells := fun a => if a = h.nextA then v else h.arrCells a,
            nextA := h.nextA + 1 }, h.nextA)

/-- Overwrite a backing array in place (Go `append` reusing the array). -/
def Heap.writeA (h : Heap) (a : Nat) (v : List String) : Heap :=
  { h with arrCells := fun x => if x = a then v else h.arrCells x }

/-- A `TimeEntry` at the pointer level: `Stop`/`Start` are addresses of time
cells, `Tags` is the address of its backing array. -/
structure HTimeEntry where
  wid : Int := 0
  id : Int := 0
  pid : Int := 0
  tid : Int := 0
  description : String := ""
  stop : Option Nat := none
  start : Option Nat := none
  tags : Nat := 0
  duration : Int := 0
  durOnly : Bool := false
  billable : Int := 0

/-- All of the entry's addresses are live cells of the heap. -/
def HTimeEntry.Valid (h : Heap) (e : HTimeEntry) : Prop :=
  (∀ a ∈ e.start, a < h.nextT) ∧ (∀ a ∈ e.stop, a < h.nextT) ∧
    e.tags < h.nextA

theorem valid_writeA (h : Heap) (e : HTimeEntry) (a : Nat) (v : List String)
    (hv : e.Valid h) : e.Valid (h.writeA a v) := hv

theorem allocA_arrCells_self (h : Heap) (v : List String) :
    (h.allocA v).1.arrCells (h.allocA v).2 = v := by
  simp [Heap.allocA]

theorem allocT_timeCells_self (h : Heap) (v : Time) :
    (h.allocT v).1.timeCells (h.allocT v).2 = v := by
  simp [Heap.allocT]

